import Mathlib

/-!
Verification of the KPI refresh system (kpi_refresh_system package).

A shallow embedding of the pipeline that turns raw vendor data points into
the wide KPI table with growth rows:
  * `src/display_utils.py` : `sort_period`, `check_needs_mm`;
  * `src/data_processor.py` : `KPIDataProcessor.process_company_data`,
    `_create_periods_dataframe`, `_reorder_periods`, `_add_growth_calculations`;
  * `src/csv_exporter.py` : `CSVExporter._export_company_data`,
    `_export_consolidated_data`;
  * `src/canalyst_client.py` : the retry wrapper on `_make_request`.

Python floats are modelled as rationals (the operations used — comparison,
division, abs, scaling by powers of ten — are exact on the inputs of
interest), nullable cells as `Option ℚ`, and a raised exception as `none`
of an `Option` result.  A pandas `Series`/row is a function from column
name to `Option ℚ`, and a `DataFrame` is a list of labelled rows plus a
column list.
-/

namespace AutoFin

/-- Python `str.startswith(p)` on the character lists of the strings. -/
def charsPre : List Char → List Char → Bool
  | [], _ => true
  | _ :: _, [] => false
  | a :: as, b :: bs => (a == b) && charsPre as bs

/-- Python `s.startswith(p)`. -/
def pyStartsWith (s p : String) : Bool := charsPre p.data s.data

/-- Digit-string to number; `none` models Python `int()` raising `ValueError`. -/
def digitsToNat : List Char → Option ℕ
  | [] => none
  | cs =>
    cs.foldl
      (fun acc c =>
        match acc with
        | none => none
        | some n => if c.isDigit then some (n * 10 + (c.toNat - '0'.toNat)) else none)
      (some 0)

/-- Python `int()` on a character list: optional sign then digits; `none`
models `ValueError`. -/
def parsePyIntChars : List Char → Option ℤ
  | '-' :: rest => (digitsToNat rest).map (fun n => -(n : ℤ))
  | '+' :: rest => (digitsToNat rest).map (fun n => (n : ℤ))
  | cs => (digitsToNat cs).map (fun n => (n : ℤ))

/-- Python `int(s)`. -/
def parsePyInt (s : String) : Option ℤ := parsePyIntChars s.data

/-- Python `str.split(sep)` on a character list (single-char separator):
always at least one part, empty parts kept. -/
def splitChar (sep : Char) : List Char → List (List Char)
  | [] => [[]]
  | c :: t =>
    if c = sep then [] :: splitChar sep t
    else
      match splitChar sep t with
      | h :: r => (c :: h) :: r
      | [] => [[c]]

/-- From `display_utils.sort_period`: the sort key of a period name.  `none`
models an uncaught `ValueError`/`IndexError` (malformed `FY`/`Q` name);
names starting with neither `FY` nor `Q` fall through to the literal
`return 0` of the source. -/
def sort_period (period : String) : Option ℤ :=
  if pyStartsWith period "FY" then
    parsePyIntChars (period.data.drop 2)
  else if pyStartsWith period "Q" then
    match splitChar '-' period.data with
    | p0 :: p1 :: _ =>
      match p0.get? 1 with
      | some c =>
        match parsePyIntChars [c], parsePyIntChars p1 with
        | some q, some y => some (y * 10 + q)
        | _, _ => none
      | none => none
    | _ => none
  else some 0

/-- From `display_utils.check_needs_mm`: true when some non-null value of the
series has absolute value at least one million. -/
def check_needs_mm (values : List (Option ℚ)) : Bool :=
  values.any fun v =>
    match v with
    | some x => decide ((1000000 : ℚ) ≤ |x|)
    | none => false

/-- The raw `value` field of a vendor data point as it reaches
`process_company_data`: JSON null, an empty string, or a number. -/
inductive RawValue where
  | null : RawValue
  | emptyStr : RawValue
  | num (q : ℚ) : RawValue
deriving DecidableEq

/-- Python truthiness of the raw value field (`if dp['value']:`). -/
def RawValue.truthy : RawValue → Bool
  | .null => false
  | .emptyStr => false
  | .num q => decide (q ≠ 0)

/-- Python `float(dp['value'])`; only evaluated on truthy values, where it
is the numeric content. -/
def RawValue.toFloat : RawValue → ℚ
  | .num q => q
  | _ => 0

/-- Value processing for a historical data point
(`data_processor.py` lines 46-51): falsy raw values stay null, and a
magnitude of at least 1,000,000 is divided by 1,000,000. -/
def processHistValue (raw : RawValue) : Option ℚ :=
  if raw.truthy then
    let v := raw.toFloat
    if (1000000 : ℚ) ≤ |v| then some (v / 1000000) else some v
  else none

/-- Value processing for a forecast data point
(`data_processor.py` line 68): `float(dp['value']) if dp['value'] else None`. -/
def processForecastValue (raw : RawValue) : Option ℚ :=
  if raw.truthy then some raw.toFloat else none

/-- A raw vendor data point as consumed by `process_company_data`.
`tsName` is `dp['time_series']['names'][0]`, `tsDesc` the description,
`tsUnitDesc` is `dp['time_series']['unit']['description']`. -/
structure RawDataPoint where
  tsName : String
  tsDesc : String
  tsUnitDesc : String
  periodName : String
  value : RawValue
deriving DecidableEq

/-- One entry of the `all_data_points` list built by `process_company_data`. -/
structure ProcessedPoint where
  time_series : String
  time_series_desc : String
  period : String
  value : Option ℚ
  is_forecast : Bool
  units : String
deriving DecidableEq

/-- The `units_lookup` dict built from `kpi_mappings` (last write wins, as
for a Python dict), falling back to the API unit description. -/
def unitsLookup (kpiMap : List (String × String)) (name dflt : String) : String :=
  match (kpiMap.reverse).lookup name with
  | some u => u
  | none => dflt

/-- The `all_data_points` list: processed historical points followed by
processed forecast points (`data_processor.py` lines 39-71).  Forecast
points take their units from the API, not from `kpi_mappings`. -/
def processDataPoints (kpiMap : List (String × String))
    (hist fore : List RawDataPoint) : List ProcessedPoint :=
  hist.map (fun dp =>
    { time_series := dp.tsName
      time_series_desc := dp.tsDesc
      period := dp.periodName
      value := processHistValue dp.value
      is_forecast := false
      units := unitsLookup kpiMap dp.tsName dp.tsUnitDesc })
  ++ fore.map (fun dp =>
    { time_series := dp.tsName
      time_series_desc := dp.tsDesc
      period := dp.periodName
      value := processForecastValue dp.value
      is_forecast := true
      units := dp.tsUnitDesc })

/-- The pivot index key `(time_series, time_series_desc, units)`. -/
abbrev RowKey := String × String × String

def ProcessedPoint.key (p : ProcessedPoint) : RowKey :=
  (p.time_series, p.time_series_desc, p.units)

/-- A pivot cell: pandas `pivot_table(aggfunc='first')` keeps, per
`(key, period)` group, the first non-null value in row order. -/
def pivotCell (pts : List ProcessedPoint) (k : RowKey) (c : String) : Option ℚ :=
  (pts.filter (fun p => decide (p.key = k) && decide (p.period = c))).findSome?
    (fun p => p.value)

/-- The columns of the pivoted frame: periods holding at least one
non-null value (`pivot_table` default `dropna=True` drops all-null
columns; only membership in this list is consumed downstream). -/
def presentCols (pts : List ProcessedPoint) : List String :=
  ((pts.filter (fun p => p.value.isSome)).map (fun p => p.period)).dedup

/-- Lexicographic order on row keys, mirroring the sorted row index of
`pivot_table`. -/
def keyLe (a b : RowKey) : Bool :=
  decide (a.1 < b.1) ||
    (decide (a.1 = b.1) &&
      (decide (a.2.1 < b.2.1) ||
        (decide (a.2.1 = b.2.1) && decide (a.2.2 ≤ b.2.2))))

/-- The row index of the pivoted frame: keys holding at least one
non-null value, deduplicated and sorted (`pivot_table` sorts its index
and drops all-null rows). -/
def pivotKeys (pts : List ProcessedPoint) : List RowKey :=
  List.insertionSort (fun a b => keyLe a b = true)
    (((pts.filter (fun p => p.value.isSome)).map ProcessedPoint.key).dedup)

/-- A period record of the vendor `periods` payload
(`_create_periods_dataframe`); dates are abstracted to integers. -/
structure RawPeriod where
  name : String
  period_duration_type : String
  start_date : ℤ
  end_date : ℤ
  is_forecast : Bool
deriving DecidableEq

/-- From `_create_periods_dataframe`: the periods frame sorted by `start_date`
ascending. -/
def createPeriodsSorted (ps : List RawPeriod) : List RawPeriod :=
  List.insertionSort (fun a b => a.start_date ≤ b.start_date) ps

/-- The annual half of `_reorder_periods`: names of `fiscal_year` periods
in the date-sorted frame, reversed (most recent first), first 5 kept. -/
def annualBlock (periods : List RawPeriod) : List String :=
  ((((createPeriodsSorted periods).filter
      (fun p => decide (p.period_duration_type = "fiscal_year"))).map
    RawPeriod.name).reverse).take 5

/-- The quarterly half of `_reorder_periods`: names of `fiscal_quarter`
periods in the date-sorted frame, reversed, first 12 kept. -/
def quarterlyBlock (periods : List RawPeriod) : List String :=
  ((((createPeriodsSorted periods).filter
      (fun p => decide (p.period_duration_type = "fiscal_quarter"))).map
    RawPeriod.name).reverse).take 12

/-- From `_reorder_periods`: annual block then quarterly block, filtered to the
columns that exist in the pivoted frame. -/
def reorderColumns (periods : List RawPeriod) (present : List String) : List String :=
  (annualBlock periods ++ quarterlyBlock periods).filter (fun c => decide (c ∈ present))

/-- One growth cell (`_add_growth_calculations`): assigned only when both
operands are non-null and the older one is non-zero; otherwise the cell
stays null. -/
def growthVal (curr prev : Option ℚ) : Option ℚ :=
  match curr, prev with
  | some c, some p => if p ≠ 0 then some ((c - p) / |p| * 100) else none
  | _, _ => none

/-- One guarded assignment `series[col] = v` of the growth loops: when the
guard fails (`v = none`) the series is untouched. -/
def assignIf (f : String → Option ℚ) (c : String) (v : Option ℚ) : String → Option ℚ :=
  match v with
  | none => f
  | some x => fun y => if y = c then some x else f y

/-- A growth loop: guarded assignments at columns `col i` with values
`val i`, for `i` running over `idxs`, starting from series `f`. -/
def applyWrites (f : String → Option ℚ) (idxs : List ℕ)
    (col : ℕ → String) (val : ℕ → Option ℚ) : String → Option ℚ :=
  idxs.foldl (fun g i => assignIf g (col i) (val i)) f

/-- The QoQ growth row of a base row (`_add_growth_calculations` lines
146-152): for `i in range(1, len(quarterly_cols))`, assign at
`quarterly_cols[i-1]` the guarded growth of `row[q[i-1]]` over `row[q[i]]`. -/
def qoqRowFun (cols : List String) (row : String → Option ℚ) : String → Option ℚ :=
  let qcols := cols.filter (fun c => pyStartsWith c "Q")
  applyWrites (fun _ => none) (List.range' 1 (qcols.length - 1))
    (fun i => qcols.getD (i - 1) "")
    (fun i => growthVal (row (qcols.getD (i - 1) "")) (row (qcols.getD i "")))

/-- The annual loop of the YoY row (`_add_growth_calculations` lines
157-162): guarded growth of consecutive annual columns, written into an
all-null series. -/
def yoyAnnualWrites (cols : List String) (row : String → Option ℚ) : String → Option ℚ :=
  let acols := cols.filter (fun c => pyStartsWith c "FY")
  applyWrites (fun _ => none) (List.range' 1 (acols.length - 1))
    (fun i => acols.getD (i - 1) "")
    (fun i => growthVal (row (acols.getD (i - 1) "")) (row (acols.getD i "")))

/-- The YoY growth row (`_add_growth_calculations` lines 154-172): the
annual loop over consecutive annual columns, then — only when at least 4
quarterly columns exist — the quarterly loop comparing position `i` to
`i + 4` for `i in range(min(8, len(quarterly_cols)))` with the inner
bound check `i + 4 < len(quarterly_cols)` (rendered as a filter). -/
def yoyRowFun (cols : List String) (row : String → Option ℚ) : String → Option ℚ :=
  let qcols := cols.filter (fun c => pyStartsWith c "Q")
  if 4 ≤ qcols.length then
    applyWrites (yoyAnnualWrites cols row)
      ((List.range (min 8 qcols.length)).filter (fun i => decide (i + 4 < qcols.length)))
      (fun i => qcols.getD i "")
      (fun i => growthVal (row (qcols.getD i "")) (row (qcols.getD (i + 4) "")))
  else yoyAnnualWrites cols row

/-- A row label of the final table: the pandas index tuple, which is the
3-tuple key for a base row and the key extended by `'qoq growth'` or
`'yoy growth'` for a growth row. -/
inductive RowLabel where
  | base (k : RowKey) : RowLabel
  | qoq (k : RowKey) : RowLabel
  | yoy (k : RowKey) : RowLabel
deriving DecidableEq

/-- From `_add_growth_calculations`: the `growth_rows` accumulation loop —
for each base row append the row itself, its QoQ row and its YoY row. -/
def addGrowth (cols : List String)
    (rows : List (RowKey × (String → Option ℚ))) : List (RowLabel × (String → Option ℚ)) :=
  rows.foldl
    (fun acc kr =>
      acc ++ [(RowLabel.base kr.1, kr.2),
              (RowLabel.qoq kr.1, qoqRowFun cols kr.2),
              (RowLabel.yoy kr.1, yoyRowFun cols kr.2)])
    []

/-- The final wide table: ordered columns and labelled rows. -/
structure KPITable where
  cols : List String
  rows : List (RowLabel × (String → Option ℚ))

/-- From `KPIDataProcessor.process_company_data`: build the processed point
list, pivot, reorder the columns, and append the growth rows. -/
def process_company_data (kpiMap : List (String × String))
    (hist fore : List RawDataPoint) (periods : List RawPeriod) : KPITable :=
  let pts := processDataPoints kpiMap hist fore
  let cols := reorderColumns periods (presentCols pts)
  { cols := cols
    rows := addGrowth cols ((pivotKeys pts).map (fun k => (k, pivotCell pts k))) }

/-- Read one cell of the built table by row label and column name. -/
def tableCell (t : KPITable) (lbl : RowLabel) (c : String) : Option ℚ :=
  match t.rows.find? (fun r => decide (r.1 = lbl)) with
  | some r => r.2 c
  | none => none

/-- The key of a row label. -/
def labelKey : RowLabel → RowKey
  | .base k => k
  | .qoq k => k
  | .yoy k => k

/-- The `metric_type` written by the CSV exporter for a row label. -/
def labelMetricType : RowLabel → String
  | .base _ => "Value"
  | .qoq _ => "qoq growth"
  | .yoy _ => "yoy growth"

/-- The `units` written by the CSV exporter: growth rows are overridden to
`'Percentage'`. -/
def labelUnits : RowLabel → String
  | .base k => k.2.2
  | .qoq _ => "Percentage"
  | .yoy _ => "Percentage"

/-- One record of the per-company long-format CSV
(`CSVExporter._export_company_data`); the wall-clock timestamp column is
out of the model. -/
structure CsvRow where
  ticker : String
  company_id : String
  kpi_code : String
  kpi_description : String
  period : String
  period_type : String
  metric_type : String
  value : ℚ
  units : String
deriving DecidableEq

/-- The record appended for a non-null cell. -/
def csvRowOf (ticker cid : String) (lbl : RowLabel) (c : String) (v : ℚ) : CsvRow :=
  { ticker := ticker
    company_id := cid
    kpi_code := (labelKey lbl).1
    kpi_description := (labelKey lbl).2.1
    period := c
    period_type := if pyStartsWith c "FY" then "Annual" else "Quarterly"
    metric_type := labelMetricType lbl
    value := v
    units := labelUnits lbl }

/-- From `CSVExporter._export_company_data`: one long-format record per
non-null cell, iterating rows then columns; null cells are skipped by the
`pd.notna(value)` guard. -/
def export_company_data (ticker cid : String) (t : KPITable) : List CsvRow :=
  t.rows.flatMap (fun lr =>
    t.cols.filterMap (fun c => (lr.2 c).map (csvRowOf ticker cid lr.1 c)))

/-- One record of the consolidated CSV
(`CSVExporter._export_consolidated_data`), which adds the company name. -/
structure ConsCsvRow where
  ticker : String
  company_name : String
  company_id : String
  kpi_code : String
  kpi_description : String
  period : String
  period_type : String
  metric_type : String
  value : ℚ
  units : String
deriving DecidableEq

/-- The consolidated record for a non-null cell. -/
def consRowOf (ticker name cid : String) (lbl : RowLabel) (c : String) (v : ℚ) : ConsCsvRow :=
  { ticker := ticker
    company_name := name
    company_id := cid
    kpi_code := (labelKey lbl).1
    kpi_description := (labelKey lbl).2.1
    period := c
    period_type := if pyStartsWith c "FY" then "Annual" else "Quarterly"
    metric_type := labelMetricType lbl
    value := v
    units := labelUnits lbl }

/-- From `CSVExporter._export_consolidated_data` over companies given as
`(company_id, ticker, company_name, table)` (the ticker/name lookup in the
mappings frame is resolved upstream): same per-cell conversion, null cells
skipped, concatenated over companies. -/
def export_consolidated_data
    (companies : List (String × String × String × KPITable)) : List ConsCsvRow :=
  companies.flatMap (fun q =>
    q.2.2.2.rows.flatMap (fun lr =>
      q.2.2.2.cols.filterMap (fun c =>
        (lr.2 c).map (consRowOf q.2.1 q.2.2.1 q.1 lr.1 c))))

/-- The observable outcome of one HTTP GET inside
`CanalystClient._make_request`. -/
inductive HttpOutcome where
  | ok (body : String) : HttpOutcome
  | rateLimited (retryAfter : ℕ) : HttpOutcome
  | httpError (status : ℕ) : HttpOutcome
  | netError : HttpOutcome
deriving DecidableEq

/-- One undecorated call of `_make_request`: a 429 raises after sleeping,
any other error status raises via `raise_for_status`, a network failure
raises, and success returns the JSON body. -/
def attemptOnce : HttpOutcome → Except String String
  | .ok b => .ok b
  | .rateLimited _ => .error "Rate limited, retrying..."
  | .httpError s => .error ("HTTP error " ++ toString s)
  | .netError => .error "network error"

/-- The tenacity `retry(stop=stop_after_attempt(n))` combinator: run
attempt `i`; on failure with attempts left, retry with `i + 1`, else
surface the last error. -/
def tenacityRetry (f : ℕ → Except String String) : ℕ → ℕ → Except String String
  | 0, _ => .error "RetryError"
  | n + 1, i =>
    match f i with
    | .ok b => .ok b
    | .error e => if n = 0 then .error e else tenacityRetry f n (i + 1)

/-- From `CanalystClient._make_request` under its decorator
`@retry(stop=stop_after_attempt(3), ...)`: up to three attempts, indexed
by the outcome of each successive HTTP call. -/
def make_request (outcomes : ℕ → HttpOutcome) : Except String String :=
  tenacityRetry (fun i => attemptOnce (outcomes i)) 3 0

/-- Modelled from the spec (classification rule of §4.1, used only to
state claims about name shapes): `FY` followed by a two-digit year. -/
def specAnnualShape (s : String) : Bool :=
  match s.data with
  | ['F', 'Y', a, b] => a.isDigit && b.isDigit
  | _ => false

/-- Modelled from the spec (classification rule of §4.1): `Q`, a quarter
digit 1-4, a separator, and a two-digit year. -/
def specQuarterlyShape (s : String) : Bool :=
  match s.data with
  | ['Q', q, sep, a, b] => (('1' ≤ q && q ≤ '4') && sep = '-') && (a.isDigit && b.isDigit)
  | _ => false

/-- Replace a raw numeric zero by JSON null in a data point (used to state
that the two are indistinguishable in the built table). -/
def zeroToNull (p : RawDataPoint) : RawDataPoint :=
  { p with value := if p.value = RawValue.num 0 then RawValue.null else p.value }

/-! ## Helper lemmas on the growth-row assignment loops -/

theorem assignIf_of_ne {c y : String} (h : y ≠ c) (f : String → Option ℚ) (v : Option ℚ) :
    assignIf f c v y = f y := by
  cases v with
  | none => rfl
  | some x => simp [assignIf, h]

theorem applyWrites_cons (f : String → Option ℚ) (a : ℕ) (t : List ℕ)
    (col : ℕ → String) (val : ℕ → Option ℚ) :
    applyWrites f (a :: t) col val = applyWrites (assignIf f (col a) (val a)) t col val := rfl

theorem applyWrites_no_hit (f : String → Option ℚ) (l : List ℕ)
    (col : ℕ → String) (val : ℕ → Option ℚ) (c : String)
    (h : ∀ i ∈ l, col i ≠ c) : applyWrites f l col val c = f c := by
  induction l generalizing f with
  | nil => rfl
  | cons a t ih =>
    rw [applyWrites_cons, ih _ (fun i hi => h i (List.mem_cons_of_mem a hi))]
    exact assignIf_of_ne (Ne.symm (h a (List.mem_cons_self a t))) f (val a)

theorem applyWrites_unique {f : String → Option ℚ} {c : String} (hf : f c = none)
    {l : List ℕ} (hnd : l.Nodup) {col : ℕ → String} {val : ℕ → Option ℚ}
    {i₀ : ℕ} (hmem : i₀ ∈ l) (hc : col i₀ = c)
    (huniq : ∀ j ∈ l, col j = c → j = i₀) :
    applyWrites f l col val c = val i₀ := by
  induction l generalizing f with
  | nil => cases hmem
  | cons a t ih =>
    rw [applyWrites_cons]
    by_cases hai : a = i₀
    · subst hai
      have hnot : ∀ j ∈ t, col j ≠ c := by
        intro j hj hcol
        have hj' := huniq j (List.mem_cons_of_mem a hj) hcol
        subst hj'
        exact (List.nodup_cons.mp hnd).1 hj
      rw [applyWrites_no_hit _ _ _ _ _ hnot, hc]
      cases hv : val a with
      | none => simpa [assignIf, hv] using hf
      | some x => simp [assignIf, hv]
    · have hca : col a ≠ c := fun hcol => hai (huniq a (List.mem_cons_self a t) hcol)
      have hg : assignIf f (col a) (val a) c = none := by
        cases hv : val a with
        | none => simpa [assignIf, hv] using hf
        | some x => simpa [assignIf, hv, Ne.symm hca] using hf
      exact ih hg (List.nodup_cons.mp hnd).2
        ((List.mem_cons.mp hmem).resolve_left (fun h => hai h.symm))
        (fun j hj => huniq j (List.mem_cons_of_mem a hj))

theorem getD_mem_of_lt {l : List String} {i : ℕ} (h : i < l.length) (d : String) :
    l.getD i d ∈ l := by
  rw [List.getD_eq_getElem l d h]
  exact List.getElem_mem h

theorem FY_and_Q_false {s : String} (h1 : pyStartsWith s "FY" = true)
    (h2 : pyStartsWith s "Q" = true) : False := by
  have e1 : charsPre ['F', 'Y'] s.data = true := h1
  have e2 : charsPre ['Q'] s.data = true := h2
  cases hd : s.data with
  | nil => rw [hd] at e1; simp [charsPre] at e1
  | cons a t =>
    rw [hd] at e1 e2
    simp only [charsPre, Bool.and_eq_true, beq_iff_eq] at e1 e2
    exact absurd (e2.1.trans e1.1.symm) (by decide)

theorem addGrowth_eq (cols : List String) (rows : List (RowKey × (String → Option ℚ))) :
    addGrowth cols rows = rows.flatMap (fun kr =>
      [(RowLabel.base kr.1, kr.2),
       (RowLabel.qoq kr.1, qoqRowFun cols kr.2),
       (RowLabel.yoy kr.1, yoyRowFun cols kr.2)]) := by
  have h : ∀ (rs : List (RowKey × (String → Option ℚ)))
      (acc : List (RowLabel × (String → Option ℚ))),
      rs.foldl (fun acc kr =>
        acc ++ [(RowLabel.base kr.1, kr.2),
                (RowLabel.qoq kr.1, qoqRowFun cols kr.2),
                (RowLabel.yoy kr.1, yoyRowFun cols kr.2)]) acc
      = acc ++ rs.flatMap (fun kr =>
          [(RowLabel.base kr.1, kr.2),
           (RowLabel.qoq kr.1, qoqRowFun cols kr.2),
           (RowLabel.yoy kr.1, yoyRowFun cols kr.2)]) := by
    intro rs
    induction rs with
    | nil => intro acc; simp
    | cons r t ih => intro acc; rw [List.foldl_cons, ih, List.flatMap_cons]; simp
  simpa [addGrowth] using h rows []

theorem length_filterMap_map {α β γ : Type} (g : α → β → γ) (h : α → Option β)
    (l : List α) :
    (l.filterMap (fun a => (h a).map (g a))).length
      = (l.filter (fun a => (h a).isSome)).length := by
  induction l with
  | nil => rfl
  | cons a t ih =>
    cases hv : h a with
    | none => simp [List.filterMap_cons, List.filter_cons, hv, ih]
    | some b => simp [List.filterMap_cons, List.filter_cons, hv, ih]

/-! ## Claim theorems -/

/-- C7: For every metric, the built table lists the rows of that metric in
the order [Base, QoQGrowth, YoYGrowth], with the growth rows immediately
after their Base row, and both growth rows are emitted unconditionally
(an all-null growth row is not suppressed): the growth step maps each
base row to exactly the three consecutive rows, so the output has three
rows per input row regardless of data completeness. -/
theorem rows_triple_structure (cols : List String)
    (rows : List (RowKey × (String → Option ℚ))) :
    addGrowth cols rows = rows.flatMap (fun kr =>
      [(RowLabel.base kr.1, kr.2),
       (RowLabel.qoq kr.1, qoqRowFun cols kr.2),
       (RowLabel.yoy kr.1, yoyRowFun cols kr.2)]) ∧
    (addGrowth cols rows).length = 3 * rows.length := by
  refine ⟨addGrowth_eq cols rows, ?_⟩
  rw [addGrowth_eq cols rows]
  induction rows with
  | nil => rfl
  | cons r t ih => simp [List.flatMap_cons, ih]; ring

/-- C9: A historical or forecast data point whose raw value field is falsy
(JSON null, the empty string, or a numeric zero) is stored as null, and a
reported zero is indistinguishable from missing data: rewriting every raw
zero to null leaves the built table unchanged. -/
theorem falsy_value_null :
    (processHistValue RawValue.null = none ∧
     processHistValue RawValue.emptyStr = none ∧
     processHistValue (RawValue.num 0) = none) ∧
    (processForecastValue RawValue.null = none ∧
     processForecastValue RawValue.emptyStr = none ∧
     processForecastValue (RawValue.num 0) = none) ∧
    (∀ (kpiMap : List (String × String)) (hist fore : List RawDataPoint)
       (periods : List RawPeriod),
      process_company_data kpiMap (hist.map zeroToNull) (fore.map zeroToNull) periods
        = process_company_data kpiMap hist fore periods) := by
  refine ⟨⟨rfl, rfl, rfl⟩, ⟨rfl, rfl, rfl⟩, ?_⟩
  intro kpiMap hist fore periods
  have hpts : processDataPoints kpiMap (hist.map zeroToNull) (fore.map zeroToNull)
      = processDataPoints kpiMap hist fore := by
    unfold processDataPoints
    congr 1
    · rw [List.map_map]
      apply List.map_congr_left
      intro dp _
      have hv : processHistValue (if dp.value = RawValue.num 0 then RawValue.null
          else dp.value) = processHistValue dp.value := by
        by_cases h : dp.value = RawValue.num 0
        · rw [if_pos h, h]; rfl
        · rw [if_neg h]
      simp [Function.comp, zeroToNull, hv]
    · rw [List.map_map]
      apply List.map_congr_left
      intro dp _
      have hv : processForecastValue (if dp.value = RawValue.num 0 then RawValue.null
          else dp.value) = processForecastValue dp.value := by
        by_cases h : dp.value = RawValue.num 0
        · rw [if_pos h, h]; rfl
        · rw [if_neg h]
      simp [Function.comp, zeroToNull, hv]
  unfold process_company_data
  rw [hpts]

/-- C8: The vendor client attempts each request at most 3 times: the
result depends only on the first three attempt outcomes; if all of the
first three attempts fail the last failure is surfaced as an error (not
retried indefinitely); and a first success within the cap, after only
failures, returns the response body. -/
theorem retry_bounded :
    (∀ o o' : ℕ → HttpOutcome, (∀ i, i < 3 → o i = o' i) →
      make_request o = make_request o') ∧
    (∀ o : ℕ → HttpOutcome, (∀ i, i < 3 → ∀ b, o i ≠ HttpOutcome.ok b) →
      ∃ e, make_request o = Except.error e) ∧
    (∀ (o : ℕ → HttpOutcome) (i : ℕ) (b : String), i < 3 → o i = HttpOutcome.ok b →
      (∀ j, j < i → ∀ b', o j ≠ HttpOutcome.ok b') →
      make_request o = Except.ok b) := by
  refine ⟨?_, ?_, ?_⟩
  · intro o o' h
    have h0 := h 0 (by omega)
    have h1 := h 1 (by omega)
    have h2 := h 2 (by omega)
    simp only [make_request, tenacityRetry, h0, h1, h2]
  · intro o h
    have h0 := h 0 (by omega)
    have h1 := h 1 (by omega)
    have h2 := h 2 (by omega)
    simp only [make_request, tenacityRetry]
    cases o0 : o 0 with
    | ok b => exact absurd o0 (h0 b)
    | rateLimited r =>
      cases o1 : o 1 with
      | ok b => exact absurd o1 (h1 b)
      | rateLimited r' =>
        cases o2 : o 2 with
        | ok b => exact absurd o2 (h2 b)
        | rateLimited r'' => exact ⟨_, rfl⟩
        | httpError s => exact ⟨_, rfl⟩
        | netError => exact ⟨_, rfl⟩
      | httpError s =>
        cases o2 : o 2 with
        | ok b => exact absurd o2 (h2 b)
        | rateLimited r'' => exact ⟨_, rfl⟩
        | httpError s' => exact ⟨_, rfl⟩
        | netError => exact ⟨_, rfl⟩
      | netError =>
        cases o2 : o 2 with
        | ok b => exact absurd o2 (h2 b)
        | rateLimited r'' => exact ⟨_, rfl⟩
        | httpError s' => exact ⟨_, rfl⟩
        | netError => exact ⟨_, rfl⟩
    | httpError s =>
      cases o1 : o 1 with
      | ok b => exact absurd o1 (h1 b)
      | rateLimited r' =>
        cases o2 : o 2 with
        | ok b => exact absurd o2 (h2 b)
        | rateLimited r'' => exact ⟨_, rfl⟩
        | httpError s' => exact ⟨_, rfl⟩
        | netError => exact ⟨_, rfl⟩
      | httpError s' =>
        cases o2 : o 2 with
        | ok b => exact absurd o2 (h2 b)
        | rateLimited r'' => exact ⟨_, rfl⟩
        | httpError s'' => exact ⟨_, rfl⟩
        | netError => exact ⟨_, rfl⟩
      | netError =>
        cases o2 : o 2 with
        | ok b => exact absurd o2 (h2 b)
        | rateLimited r'' => exact ⟨_, rfl⟩
        | httpError s'' => exact ⟨_, rfl⟩
        | netError => exact ⟨_, rfl⟩
    | netError =>
      cases o1 : o 1 with
      | ok b => exact absurd o1 (h1 b)
      | rateLimited r' =>
        cases o2 : o 2 with
        | ok b => exact absurd o2 (h2 b)
        | rateLimited r'' => exact ⟨_, rfl⟩
        | httpError s' => exact ⟨_, rfl⟩
        | netError => exact ⟨_, rfl⟩
      | httpError s' =>
        cases o2 : o 2 with
        | ok b => exact absurd o2 (h2 b)
        | rateLimited r'' => exact ⟨_, rfl⟩
        | httpError s'' => exact ⟨_, rfl⟩
        | netError => exact ⟨_, rfl⟩
      | netError =>
        cases o2 : o 2 with
        | ok b => exact absurd o2 (h2 b)
        | rateLimited r'' => exact ⟨_, rfl⟩
        | httpError s'' => exact ⟨_, rfl⟩
        | netError => exact ⟨_, rfl⟩
  · intro o i b hi hok hfail
    interval_cases i
    · simp only [make_request, tenacityRetry, hok, attemptOnce]
    · have h0 := hfail 0 (by omega)
      simp only [make_request, tenacityRetry]
      cases o0 : o 0 with
      | ok b' => exact absurd o0 (h0 b')
      | rateLimited r => simp [attemptOnce, hok]
      | httpError s => simp [attemptOnce, hok]
      | netError => simp [attemptOnce, hok]
    · have h0 := hfail 0 (by omega)
      have h1 := hfail 1 (by omega)
      simp only [make_request, tenacityRetry]
      cases o0 : o 0 with
      | ok b' => exact absurd o0 (h0 b')
      | rateLimited r =>
        cases o1 : o 1 with
        | ok b' => exact absurd o1 (h1 b')
        | rateLimited r' => simp [attemptOnce, hok]
        | httpError s => simp [attemptOnce, hok]
        | netError => simp [attemptOnce, hok]
      | httpError s =>
        cases o1 : o 1 with
        | ok b' => exact absurd o1 (h1 b')
        | rateLimited r' => simp [attemptOnce, hok]
        | httpError s' => simp [attemptOnce, hok]
        | netError => simp [attemptOnce, hok]
      | netError =>
        cases o1 : o 1 with
        | ok b' => exact absurd o1 (h1 b')
        | rateLimited r' => simp [attemptOnce, hok]
        | httpError s' => simp [attemptOnce, hok]
        | netError => simp [attemptOnce, hok]

/-- Witness for C8: a request whose first attempt succeeds returns the
body within the attempt cap. -/
theorem retry_bounded_witness :
    make_request (fun _ => HttpOutcome.ok "body") = Except.ok "body" :=
  retry_bounded.2.2 (fun _ => HttpOutcome.ok "body") 0 "body" (by omega) rfl
    (fun j hj => absurd hj (Nat.not_lt_zero j))

/-! ## The growth loops, evaluated cell by cell (toward C1) -/

theorem applyWrites_consecutive {L : List String} (hnd : L.Nodup)
    (row : String → Option ℚ) (i : ℕ) (hi : i + 1 < L.length) :
    applyWrites (fun _ => none) (List.range' 1 (L.length - 1))
      (fun j => L.getD (j - 1) "")
      (fun j => growthVal (row (L.getD (j - 1) "")) (row (L.getD j "")))
      (L.getD i "")
      = growthVal (row (L.getD i "")) (row (L.getD (i + 1) "")) := by
  have hmem : i + 1 ∈ List.range' 1 (L.length - 1) := by
    rw [List.mem_range']
    exact ⟨i, by omega, by omega⟩
  have hc : (fun j => L.getD (j - 1) "") (i + 1) = L.getD i "" := by simp
  have huniq : ∀ j ∈ List.range' 1 (L.length - 1),
      (fun j => L.getD (j - 1) "") j = L.getD i "" → j = i + 1 := by
    intro j hj hcol
    rw [List.mem_range'] at hj
    obtain ⟨t, ht, rfl⟩ := hj
    simp only at hcol
    have hj1 : 1 + 1 * t - 1 < L.length := by omega
    have hi' : i < L.length := by omega
    rw [List.getD_eq_getElem L "" hj1, List.getD_eq_getElem L "" hi'] at hcol
    have := (hnd.getElem_inj_iff).mp hcol
    omega
  have h : applyWrites (fun _ => none) (List.range' 1 (L.length - 1))
      (fun j => L.getD (j - 1) "")
      (fun j => growthVal (row (L.getD (j - 1) "")) (row (L.getD j "")))
      (L.getD i "")
      = growthVal (row (L.getD (i + 1 - 1) "")) (row (L.getD (i + 1) "")) :=
    applyWrites_unique rfl (List.nodup_range' 1 (L.length - 1)) hmem hc huniq
  simpa using h

theorem qoqRowFun_eval (cols : List String) (hnd : cols.Nodup)
    (row : String → Option ℚ) (i : ℕ)
    (hi : i + 1 < (cols.filter (fun c => pyStartsWith c "Q")).length) :
    qoqRowFun cols row ((cols.filter (fun c => pyStartsWith c "Q")).getD i "")
      = growthVal (row ((cols.filter (fun c => pyStartsWith c "Q")).getD i ""))
          (row ((cols.filter (fun c => pyStartsWith c "Q")).getD (i + 1) "")) :=
  applyWrites_consecutive (hnd.filter _) row i hi

theorem yoyAnnualWrites_eval (cols : List String) (hnd : cols.Nodup)
    (row : String → Option ℚ) (i : ℕ)
    (hi : i + 1 < (cols.filter (fun c => pyStartsWith c "FY")).length) :
    yoyAnnualWrites cols row ((cols.filter (fun c => pyStartsWith c "FY")).getD i "")
      = growthVal (row ((cols.filter (fun c => pyStartsWith c "FY")).getD i ""))
          (row ((cols.filter (fun c => pyStartsWith c "FY")).getD (i + 1) "")) :=
  applyWrites_consecutive (hnd.filter _) row i hi

theorem yoyAnnualWrites_eval_on_Q (cols : List String)
    (row : String → Option ℚ) {c : String} (hcQ : pyStartsWith c "Q" = true) :
    yoyAnnualWrites cols row c = none := by
  unfold yoyAnnualWrites
  apply applyWrites_no_hit
  intro j hj heq
  rw [List.mem_range'] at hj
  obtain ⟨t, ht, rfl⟩ := hj
  have hjlen : 1 + 1 * t - 1 < (cols.filter (fun c => pyStartsWith c "FY")).length := by
    omega
  have hmem := getD_mem_of_lt hjlen ""
  have hFY := (List.mem_filter.mp hmem).2
  rw [heq] at hFY
  exact FY_and_Q_false hFY hcQ

theorem yoyRowFun_eval_annual (cols : List String) (hnd : cols.Nodup)
    (row : String → Option ℚ) (i : ℕ)
    (hi : i + 1 < (cols.filter (fun c => pyStartsWith c "FY")).length) :
    yoyRowFun cols row ((cols.filter (fun c => pyStartsWith c "FY")).getD i "")
      = growthVal (row ((cols.filter (fun c => pyStartsWith c "FY")).getD i ""))
          (row ((cols.filter (fun c => pyStartsWith c "FY")).getD (i + 1) "")) := by
  have hA : ((cols.filter (fun c => pyStartsWith c "FY")).getD i "")
      ∈ cols.filter (fun c => pyStartsWith c "FY") := getD_mem_of_lt (by omega) ""
  have hAFY := (List.mem_filter.mp hA).2
  unfold yoyRowFun
  by_cases h4 : 4 ≤ (cols.filter (fun c => pyStartsWith c "Q")).length
  · rw [if_pos h4]
    have hnohit : ∀ j ∈ (List.range
          (min 8 (cols.filter (fun c => pyStartsWith c "Q")).length)).filter
          (fun i => decide (i + 4 < (cols.filter (fun c => pyStartsWith c "Q")).length)),
        (cols.filter (fun c => pyStartsWith c "Q")).getD j ""
          ≠ (cols.filter (fun c => pyStartsWith c "FY")).getD i "" := by
      intro j hj heq
      have hjr := (List.mem_filter.mp hj).1
      rw [List.mem_range] at hjr
      have hjlen : j < (cols.filter (fun c => pyStartsWith c "Q")).length :=
        lt_of_lt_of_le hjr (min_le_right _ _)
      have hmemQ := getD_mem_of_lt hjlen ""
      have hQ := (List.mem_filter.mp hmemQ).2
      rw [heq] at hQ
      exact FY_and_Q_false hAFY hQ
    rw [applyWrites_no_hit _ _ _ _ _ hnohit]
    exact yoyAnnualWrites_eval cols hnd row i hi
  · rw [if_neg h4]
    exact yoyAnnualWrites_eval cols hnd row i hi

theorem yoyRowFun_eval_quarterly (cols : List String) (hnd : cols.Nodup)
    (hq : (cols.filter (fun c => pyStartsWith c "Q")).length ≤ 12)
    (row : String → Option ℚ) (i : ℕ)
    (hi : i + 4 < (cols.filter (fun c => pyStartsWith c "Q")).length) :
    yoyRowFun cols row ((cols.filter (fun c => pyStartsWith c "Q")).getD i "")
      = growthVal (row ((cols.filter (fun c => pyStartsWith c "Q")).getD i ""))
          (row ((cols.filter (fun c => pyStartsWith c "Q")).getD (i + 4) "")) := by
  have h4 : 4 ≤ (cols.filter (fun c => pyStartsWith c "Q")).length := by omega
  have hiQ : i < (cols.filter (fun c => pyStartsWith c "Q")).length := by omega
  have hcQ := (List.mem_filter.mp (getD_mem_of_lt hiQ "")).2
  unfold yoyRowFun
  rw [if_pos h4]
  have hf : yoyAnnualWrites cols row
      ((cols.filter (fun c => pyStartsWith c "Q")).getD i "") = none :=
    yoyAnnualWrites_eval_on_Q cols row hcQ
  have hmem : i ∈ (List.range
      (min 8 (cols.filter (fun c => pyStartsWith c "Q")).length)).filter
      (fun i => decide (i + 4 < (cols.filter (fun c => pyStartsWith c "Q")).length)) := by
    rw [List.mem_filter, List.mem_range]
    exact ⟨Nat.lt_min.mpr ⟨by omega, hiQ⟩, by simpa using hi⟩
  have huniq : ∀ j ∈ (List.range
      (min 8 (cols.filter (fun c => pyStartsWith c "Q")).length)).filter
      (fun i => decide (i + 4 < (cols.filter (fun c => pyStartsWith c "Q")).length)),
      (cols.filter (fun c => pyStartsWith c "Q")).getD j ""
        = (cols.filter (fun c => pyStartsWith c "Q")).getD i "" → j = i := by
    intro j hj hcol
    have hjr := (List.mem_filter.mp hj).1
    rw [List.mem_range] at hjr
    have hjlen : j < (cols.filter (fun c => pyStartsWith c "Q")).length :=
      lt_of_lt_of_le hjr (min_le_right _ _)
    rw [List.getD_eq_getElem _ "" hjlen, List.getD_eq_getElem _ "" hiQ] at hcol
    exact ((hnd.filter _).getElem_inj_iff).mp hcol
  exact applyWrites_unique hf ((List.nodup_range _).filter _) hmem rfl huniq

/-- C1: For every metric row of the built KPI table, the growth rows obey
the stated formulas.  The QoQ row and the YoY row of each base row are in
the table produced by the growth step; QoQ at quarterly column position
`i` equals `(value[i] − value[i+1]) / abs(value[i+1]) × 100`; YoY at an
annual column compares it to the adjacent older annual column with the
same formula; YoY at quarterly position `i` compares `value[i]` to
`value[i+4]`; and `growthVal` yields `none` whenever either operand is
null or the denominator is zero, never an exception, never zero.  (The
table built by `process_company_data` has at most 12 quarterly columns —
the windowing cap — which hypothesis `hq` records.) -/
theorem growth_rows_formula (cols : List String)
    (rows : List (RowKey × (String → Option ℚ)))
    (hnd : cols.Nodup)
    (hq : (cols.filter (fun c => pyStartsWith c "Q")).length ≤ 12)
    (k : RowKey) (r : String → Option ℚ) (hmem : (k, r) ∈ rows) :
    (RowLabel.qoq k, qoqRowFun cols r) ∈ addGrowth cols rows ∧
    (RowLabel.yoy k, yoyRowFun cols r) ∈ addGrowth cols rows ∧
    (∀ i, i + 1 < (cols.filter (fun c => pyStartsWith c "Q")).length →
      qoqRowFun cols r ((cols.filter (fun c => pyStartsWith c "Q")).getD i "")
        = growthVal (r ((cols.filter (fun c => pyStartsWith c "Q")).getD i ""))
            (r ((cols.filter (fun c => pyStartsWith c "Q")).getD (i + 1) ""))) ∧
    (∀ i, i + 1 < (cols.filter (fun c => pyStartsWith c "FY")).length →
      yoyRowFun cols r ((cols.filter (fun c => pyStartsWith c "FY")).getD i "")
        = growthVal (r ((cols.filter (fun c => pyStartsWith c "FY")).getD i ""))
            (r ((cols.filter (fun c => pyStartsWith c "FY")).getD (i + 1) ""))) ∧
    (∀ i, i + 4 < (cols.filter (fun c => pyStartsWith c "Q")).length →
      yoyRowFun cols r ((cols.filter (fun c => pyStartsWith c "Q")).getD i "")
        = growthVal (r ((cols.filter (fun c => pyStartsWith c "Q")).getD i ""))
            (r ((cols.filter (fun c => pyStartsWith c "Q")).getD (i + 4) ""))) ∧
    (∀ x : Option ℚ, growthVal x none = none ∧ growthVal none x = none ∧
      growthVal x (some 0) = none) := by
  refine ⟨?_, ?_, ?_, ?_, ?_, ?_⟩
  · rw [addGrowth_eq]
    exact List.mem_flatMap.mpr ⟨(k, r), hmem, by simp⟩
  · rw [addGrowth_eq]
    exact List.mem_flatMap.mpr ⟨(k, r), hmem, by simp⟩
  · exact fun i hi => qoqRowFun_eval cols hnd r i hi
  · exact fun i hi => yoyRowFun_eval_annual cols hnd r i hi
  · exact fun i hi => yoyRowFun_eval_quarterly cols hnd hq r i hi
  · intro x
    refine ⟨?_, ?_, ?_⟩
    · cases x <;> rfl
    · rfl
    · cases x <;> simp [growthVal]

/-- Concrete columns exercising every case of C1. -/
def colsW : List String :=
  ["FY24", "FY23", "Q1-24", "Q4-23", "Q3-23", "Q2-23", "Q1-23"]

/-- A concrete base row for the C1 witness. -/
def rowW : String → Option ℚ := fun c =>
  if c = "FY24" then some 1200
  else if c = "FY23" then some 1000
  else if c = "Q1-24" then some 110
  else if c = "Q4-23" then some 100
  else if c = "Q1-23" then some 90
  else none

/-- Witness for C1 at concrete inputs: QoQ of Q1-24 over Q4-23 is 10%,
annual YoY of FY24 over FY23 is 20%, quarterly YoY of Q1-24 over Q1-23 is
200/9 %. -/
theorem growth_rows_formula_witness :
    colsW.Nodup ∧
    (colsW.filter (fun c => pyStartsWith c "Q")).length ≤ 12 ∧
    qoqRowFun colsW rowW "Q1-24" = some 10 ∧
    yoyRowFun colsW rowW "FY24" = some 20 ∧
    yoyRowFun colsW rowW "Q1-24" = some (200 / 9) := by
  have h := growth_rows_formula colsW [(("REV", "Revenue", "Millions"), rowW)]
    (by decide) (by decide) ("REV", "Revenue", "Millions") rowW
    (List.mem_cons_self _ _)
  refine ⟨by decide, by decide, ?_, ?_, ?_⟩
  · have e := h.2.2.1 0 (by decide)
    rw [show (colsW.filter (fun c => pyStartsWith c "Q")).getD 0 "" = "Q1-24" from rfl,
        show (colsW.filter (fun c => pyStartsWith c "Q")).getD 1 "" = "Q4-23" from rfl]
      at e
    rw [e, show rowW "Q1-24" = some 110 from rfl, show rowW "Q4-23" = some 100 from rfl]
    norm_num [growthVal]
  · have e := h.2.2.2.1 0 (by decide)
    rw [show (colsW.filter (fun c => pyStartsWith c "FY")).getD 0 "" = "FY24" from rfl,
        show (colsW.filter (fun c => pyStartsWith c "FY")).getD 1 "" = "FY23" from rfl]
      at e
    rw [e, show rowW "FY24" = some 1200 from rfl, show rowW "FY23" = some 1000 from rfl]
    norm_num [growthVal]
  · have e := h.2.2.2.2.1 0 (by decide)
    rw [show (colsW.filter (fun c => pyStartsWith c "Q")).getD 0 "" = "Q1-24" from rfl,
        show (colsW.filter (fun c => pyStartsWith c "Q")).getD 4 "" = "Q1-23" from rfl]
      at e
    rw [e, show rowW "Q1-24" = some 110 from rfl, show rowW "Q1-23" = some 90 from rfl]
    norm_num [growthVal]

/-! ## C2: unit scaling -/

/-- A single forecast data point of exactly one million. -/
def foreC2 : List RawDataPoint :=
  [⟨"REV", "Revenue", "Millions", "FY24", RawValue.num 1000000⟩]

/-- Its period catalog. -/
def periodsC2 : List RawPeriod := [⟨"FY24", "fiscal_year", 240101, 241231, false⟩]

/-- Counterexample to C2: a forecast value of exactly 1,000,000 is stored
unscaled (1,000,000, not 1.0) in the built KPI table — the millions
normalization is applied to historical points only. -/
theorem forecast_value_not_scaled :
    tableCell (process_company_data [] [] foreC2 periodsC2)
        (RowLabel.base ("REV", "Revenue", "Millions")) "FY24" = some 1000000 ∧
    processForecastValue (RawValue.num 1000000) = some 1000000 ∧
    some (1000000 : ℚ) ≠ some (1 : ℚ) := by
  refine ⟨by decide, rfl, by norm_num⟩

/-- C2 (amended): only historical values are normalized — a historical
value with magnitude at least 1,000,000 is stored divided by 1,000,000
(1,000,000 becomes 1.0, 999,999 stays unscaled), a forecast value is
stored as-is — and the millions display qualifier is not an ingestion
flag: `check_needs_mm` recomputes it at display time as `true` exactly
when some stored non-null value has magnitude at least 1,000,000. -/
theorem scaling_amended :
    (∀ q : ℚ, 1000000 ≤ |q| → processHistValue (RawValue.num q) = some (q / 1000000)) ∧
    (∀ q : ℚ, q ≠ 0 → |q| < 1000000 → processHistValue (RawValue.num q) = some q) ∧
    (∀ q : ℚ, q ≠ 0 → processForecastValue (RawValue.num q) = some q) ∧
    (∀ vs : List (Option ℚ), check_needs_mm vs = true ↔
      ∃ x : ℚ, some x ∈ vs ∧ 1000000 ≤ |x|) ∧
    processHistValue (RawValue.num 1000000) = some 1 ∧
    processHistValue (RawValue.num 999999) = some 999999 := by
  refine ⟨?_, ?_, ?_, ?_, ?_, ?_⟩
  · intro q hq
    have hq0 : q ≠ 0 := by
      intro h
      rw [h] at hq
      norm_num at hq
    simp [processHistValue, RawValue.truthy, RawValue.toFloat, hq0, hq]
  · intro q hq0 hq
    simp [processHistValue, RawValue.truthy, RawValue.toFloat, hq0, not_le.mpr hq]
  · intro q hq0
    simp [processForecastValue, RawValue.truthy, RawValue.toFloat, hq0]
  · intro vs
    rw [check_needs_mm, List.any_eq_true]
    constructor
    · rintro ⟨v, hv, hp⟩
      cases v with
      | none => simp at hp
      | some x => exact ⟨x, hv, by simpa using hp⟩
    · rintro ⟨x, hx, hle⟩
      exact ⟨some x, hx, by simpa using hle⟩
  · norm_num [processHistValue, RawValue.truthy, RawValue.toFloat]
  · norm_num [processHistValue, RawValue.truthy, RawValue.toFloat]

/-- Witness for C2 (amended) at a historical value of 2,500,000. -/
theorem scaling_amended_witness :
    (1000000 : ℚ) ≤ |(2500000 : ℚ)| ∧
    processHistValue (RawValue.num 2500000) = some (2500000 / 1000000) :=
  ⟨by norm_num, scaling_amended.1 2500000 (by norm_num)⟩

/-! ## C3 and C4: column ordering and windowing -/

/-- Two annual periods whose start dates disagree with their names. -/
def periodsC3 : List RawPeriod :=
  [⟨"FY24", "fiscal_year", 10, 11, false⟩, ⟨"FY23", "fiscal_year", 20, 21, false⟩]

/-- Counterexample to C3: the assembled column order follows `start_date`,
not the name-derived key — with FY23 carrying the later start date the
output is [FY23, FY24] although the name keys order FY24 first. -/
theorem column_order_follows_dates :
    reorderColumns periodsC3 ["FY23", "FY24"] = ["FY23", "FY24"] ∧
    sort_period "FY23" = some 23 ∧
    sort_period "FY24" = some 24 ∧
    (["FY23", "FY24"] : List String) ≠ ["FY24", "FY23"] := by
  refine ⟨by decide, by decide, by decide, by decide⟩

/-- Descending name-key order between two period names (keys read through
`sort_period`, defaulting to 0, which consistency rules out). -/
def keyDescD (a b : String) : Prop :=
  (sort_period b).getD 0 ≤ (sort_period a).getD 0

/-- The periods' start dates agree with their `sort_period` name keys
(within each duration type). -/
def dateKeyConsistent (periods : List RawPeriod) : Prop :=
  ∀ p ∈ periods, ∀ q ∈ periods,
    p.period_duration_type = q.period_duration_type →
      ((sort_period p.name).isSome = true ∧
       (p.start_date ≤ q.start_date ↔
         (sort_period p.name).getD 0 ≤ (sort_period q.name).getD 0))

theorem createPeriodsSorted_pairwise (periods : List RawPeriod) :
    (createPeriodsSorted periods).Pairwise
      (fun a b : RawPeriod => a.start_date ≤ b.start_date) := by
  haveI : IsTotal RawPeriod (fun a b => a.start_date ≤ b.start_date) :=
    ⟨fun a b => le_total a.start_date b.start_date⟩
  haveI : IsTrans RawPeriod (fun a b => a.start_date ≤ b.start_date) :=
    ⟨fun a b c => le_trans⟩
  exact List.sorted_insertionSort _ periods

theorem createPeriodsSorted_mem {periods : List RawPeriod} {p : RawPeriod}
    (h : p ∈ createPeriodsSorted periods) : p ∈ periods :=
  (List.perm_insertionSort _ periods).mem_iff.mp h

/-- C3 (amended): the assembled column sequence is the annual block then
the quarterly block (each filtered to present columns), where the blocks
are ordered by `start_date` descending (capped at 5 and 12) — and whenever
the start dates are consistent with the `sort_period` name keys, each
block is sorted descending by its name key, as the claim states. -/
theorem column_order_amended (periods : List RawPeriod) (present : List String) :
    (reorderColumns periods present
      = (annualBlock periods).filter (fun c => decide (c ∈ present))
        ++ (quarterlyBlock periods).filter (fun c => decide (c ∈ present))) ∧
    (dateKeyConsistent periods →
      (annualBlock periods).Pairwise keyDescD ∧
      (quarterlyBlock periods).Pairwise keyDescD) := by
  constructor
  · rw [reorderColumns, List.filter_append]
  · intro hcons
    have hblock : ∀ ty : String,
        ((((createPeriodsSorted periods).filter
            (fun p => decide (p.period_duration_type = ty))).map
          RawPeriod.name).reverse).Pairwise keyDescD := by
      intro ty
      have h1 : ((createPeriodsSorted periods).filter
          (fun p => decide (p.period_duration_type = ty))).Pairwise
          (fun a b : RawPeriod => a.start_date ≤ b.start_date) :=
        (createPeriodsSorted_pairwise periods).filter _
      have h2 : ((createPeriodsSorted periods).filter
          (fun p => decide (p.period_duration_type = ty))).Pairwise
          (fun a b : RawPeriod =>
            (sort_period a.name).getD 0 ≤ (sort_period b.name).getD 0) := by
        refine h1.imp_of_mem ?_
        intro a b ha hb hab
        have ha' := List.mem_filter.mp ha
        have hb' := List.mem_filter.mp hb
        have hta : a.period_duration_type = ty := by simpa using ha'.2
        have htb : b.period_duration_type = ty := by simpa using hb'.2
        have hc := hcons a (createPeriodsSorted_mem ha'.1) b
          (createPeriodsSorted_mem hb'.1) (hta.trans htb.symm)
        exact hc.2.mp hab
      have h3 : (((createPeriodsSorted periods).filter
          (fun p => decide (p.period_duration_type = ty))).map
          RawPeriod.name).Pairwise
          (fun a b : String => (sort_period a).getD 0 ≤ (sort_period b).getD 0) :=
        List.pairwise_map.mpr h2
      rw [List.pairwise_reverse]
      exact h3.imp (fun h => h)
    constructor
    · rw [annualBlock]
      exact List.Pairwise.sublist (List.take_sublist _ _) (hblock "fiscal_year")
    · rw [quarterlyBlock]
      exact List.Pairwise.sublist (List.take_sublist _ _) (hblock "fiscal_quarter")

/-- The spec's ordering example with name-consistent start dates. -/
def periodsEx3 : List RawPeriod :=
  [⟨"FY23", "fiscal_year", 2301, 2312, false⟩,
   ⟨"FY24", "fiscal_year", 2401, 2412, false⟩,
   ⟨"Q4-23", "fiscal_quarter", 2310, 2312, false⟩,
   ⟨"Q1-24", "fiscal_quarter", 2401, 2403, false⟩]

/-- Witness for C3 (amended): on the spec's example the blocks are
key-descending and the assembled sequence is [FY24, FY23, Q1-24, Q4-23]. -/
theorem column_order_amended_witness :
    dateKeyConsistent periodsEx3 ∧
    ((annualBlock periodsEx3).Pairwise keyDescD ∧
     (quarterlyBlock periodsEx3).Pairwise keyDescD) ∧
    reorderColumns periodsEx3 ["FY23", "FY24", "Q4-23", "Q1-24"]
      = ["FY24", "FY23", "Q1-24", "Q4-23"] :=
  ⟨by unfold dateKeyConsistent; decide,
   (column_order_amended periodsEx3 ["FY23", "FY24", "Q4-23", "Q1-24"]).2
     (by unfold dateKeyConsistent; decide),
   by decide⟩

/-- A six-year catalog whose most recent year has no observation data. -/
def periodsC4 : List RawPeriod :=
  [⟨"FY20", "fiscal_year", 20, 0, false⟩, ⟨"FY21", "fiscal_year", 21, 0, false⟩,
   ⟨"FY22", "fiscal_year", 22, 0, false⟩, ⟨"FY23", "fiscal_year", 23, 0, false⟩,
   ⟨"FY24", "fiscal_year", 24, 0, false⟩, ⟨"FY25", "fiscal_year", 25, 0, false⟩]

/-- The periods that actually carry observations: all but FY25. -/
def presentC4 : List String := ["FY24", "FY23", "FY22", "FY21", "FY20"]

/-- Counterexample to C4: five annual periods have observation data, yet
the table gets only four annual columns — the 5-cap is applied to the
period catalog (which includes the dataless FY25) before intersecting
with the columns present in the data. -/
theorem window_cap_counterexample :
    (periodsC4.filter (fun p => decide (p.period_duration_type = "fiscal_year"
        ∧ p.name ∈ presentC4))).length = 5 ∧
    reorderColumns periodsC4 presentC4 = ["FY24", "FY23", "FY22", "FY21"] ∧
    (reorderColumns periodsC4 presentC4).length ≠ 5 := by
  refine ⟨by decide, by decide, by decide⟩

/-- C4 (amended): the window keeps at most the 5 most recent annual and
the 12 most recent quarterly periods of the catalog, and a column is in
the assembled sequence exactly when it is in one of these capped catalog
blocks and also present in the observation data — possibly fewer than
5 (resp. 12) columns even when that many periods have data. -/
theorem window_amended (periods : List RawPeriod) (present : List String) :
    (annualBlock periods).length ≤ 5 ∧
    (quarterlyBlock periods).length ≤ 12 ∧
    (∀ c, c ∈ reorderColumns periods present ↔
      (c ∈ annualBlock periods ++ quarterlyBlock periods ∧ c ∈ present)) := by
  refine ⟨?_, ?_, ?_⟩
  · rw [annualBlock]
    simp [List.length_take]
  · rw [quarterlyBlock]
    simp [List.length_take]
  · intro c
    rw [reorderColumns, List.mem_filter]
    simp

/-- Witness for C4 (amended) at the concrete six-year catalog. -/
theorem window_amended_witness :
    (annualBlock periodsC4).length ≤ 5 ∧
    ("FY24" ∈ reorderColumns periodsC4 presentC4 ↔
      ("FY24" ∈ annualBlock periodsC4 ++ quarterlyBlock periodsC4 ∧
       "FY24" ∈ presentC4)) :=
  ⟨(window_amended periodsC4 presentC4).1,
   (window_amended periodsC4 presentC4).2.2 "FY24"⟩

/-! ## C5: metrics with no usable observations -/

/-- The requested metric catalog: REV is requested. -/
def kpiMapC5 : List (String × String) := [("REV", "Millions")]

/-- REV has one all-null observation; OTH has real data. -/
def histC5 : List RawDataPoint :=
  [⟨"REV", "Revenue", "Millions", "FY24", RawValue.null⟩,
   ⟨"OTH", "Other", "Units", "FY24", RawValue.num 5⟩]

def periodsC5 : List RawPeriod := [⟨"FY24", "fiscal_year", 24, 0, false⟩]

/-- Counterexample to C5: the requested metric REV, whose only observation
is null, gets no row at all in the built table (no all-null Base row),
while OTH gets its usual three rows — the metric is dropped silently. -/
theorem missing_metric_dropped :
    ((process_company_data kpiMapC5 histC5 [] periodsC5).rows.countP
        (fun lr => decide ((labelKey lr.1).1 = "REV"))) = 0 ∧
    ((process_company_data kpiMapC5 histC5 [] periodsC5).rows.countP
        (fun lr => decide ((labelKey lr.1).1 = "OTH"))) = 3 := by
  refine ⟨by decide, by decide⟩

theorem process_company_data_rows (kpiMap : List (String × String))
    (hist fore : List RawDataPoint) (periods : List RawPeriod) :
    (process_company_data kpiMap hist fore periods).rows
      = addGrowth
          (reorderColumns periods (presentCols (processDataPoints kpiMap hist fore)))
          ((pivotKeys (processDataPoints kpiMap hist fore)).map
            (fun k => (k, pivotCell (processDataPoints kpiMap hist fore) k))) := rfl

/-- C5 (amended): a Base row for key `k` exists in the built table exactly
when some ingested data point has key `k` and a non-null processed value;
a requested metric with zero observations, or with only falsy-valued
observations, is silently dropped. -/
theorem missing_metric_amended (kpiMap : List (String × String))
    (hist fore : List RawDataPoint) (periods : List RawPeriod) (k : RowKey) :
    (∃ f, (RowLabel.base k, f) ∈ (process_company_data kpiMap hist fore periods).rows) ↔
      ∃ p ∈ processDataPoints kpiMap hist fore,
        ProcessedPoint.key p = k ∧ p.value.isSome = true := by
  have hkeys : k ∈ pivotKeys (processDataPoints kpiMap hist fore) ↔
      ∃ p ∈ processDataPoints kpiMap hist fore,
        ProcessedPoint.key p = k ∧ p.value.isSome = true := by
    rw [pivotKeys,
      (List.perm_insertionSort (fun a b => keyLe a b = true) _).mem_iff, List.mem_dedup]
    constructor
    · intro h
      obtain ⟨p, hp, hkp⟩ := List.mem_map.mp h
      have hp' := List.mem_filter.mp hp
      exact ⟨p, hp'.1, hkp, hp'.2⟩
    · rintro ⟨p, hp, hkp, hv⟩
      exact List.mem_map.mpr ⟨p, List.mem_filter.mpr ⟨hp, hv⟩, hkp⟩
  rw [← hkeys]
  simp only [process_company_data_rows, addGrowth_eq]
  constructor
  · rintro ⟨f, hf⟩
    obtain ⟨kr, hkr, hin⟩ := List.mem_flatMap.mp hf
    obtain ⟨k', hk', hkr'⟩ := List.mem_map.mp hkr
    subst hkr'
    simp only [List.mem_cons, List.mem_singleton, Prod.mk.injEq] at hin
    rcases hin with ⟨hl, -⟩ | ⟨hl, -⟩ | ⟨hl, -⟩ | h
    · cases hl
      exact hk'
    · cases hl
    · cases hl
    · cases h
  · intro hk
    refine ⟨pivotCell (processDataPoints kpiMap hist fore) k, ?_⟩
    refine List.mem_flatMap.mpr
      ⟨(k, pivotCell (processDataPoints kpiMap hist fore) k),
       List.mem_map.mpr ⟨k, hk, rfl⟩, ?_⟩
    exact List.mem_cons_self _ _

/-- Witness for C5 (amended): for the concrete data of the dropped-metric
scenario, the OTH metric (which has a non-null point) does get a Base row. -/
theorem missing_metric_amended_witness :
    ∃ f, (RowLabel.base ("OTH", "Other", "Units"), f)
      ∈ (process_company_data kpiMapC5 histC5 [] periodsC5).rows :=
  (missing_metric_amended kpiMapC5 histC5 [] periodsC5 ("OTH", "Other", "Units")).mpr
    ⟨⟨"OTH", "Other", "FY24", some 5, false, "Units"⟩, by decide, rfl, rfl⟩

/-! ## C6: period-name classification -/

/-- An observation with an unclassifiable period name. -/
def histC6 : List RawDataPoint :=
  [⟨"REV", "Revenue", "Millions", "H1-24", RawValue.num 7⟩]

def periodsC6 : List RawPeriod := [⟨"H1-24", "fiscal_year", 24, 0, false⟩]

/-- Counterexample to C6: the name H1-24 is of neither the Annual nor the
Quarterly shape, yet `sort_period` silently assigns it sort key 0 and the
pipeline keeps it as a table column with its value — the observation is
neither excluded nor reported. -/
theorem unclassified_period_kept :
    specAnnualShape "H1-24" = false ∧
    specQuarterlyShape "H1-24" = false ∧
    sort_period "H1-24" = some 0 ∧
    "H1-24" ∈ (process_company_data [] histC6 [] periodsC6).cols ∧
    tableCell (process_company_data [] histC6 [] periodsC6)
      (RowLabel.base ("REV", "Revenue", "Millions")) "H1-24" = some 7 := by
  refine ⟨rfl, rfl, by decide, by decide, by decide⟩

/-- C6 (amended): classification is prefix-driven and not
total-with-rejection — every name starting with neither `FY` nor `Q`
gets the silent default sort key 0, while malformed `FY`/`Q` names make
`sort_period` raise (modelled as `none`); no error channel reports or
excludes such names. -/
theorem classification_amended :
    (∀ s : String, pyStartsWith s "FY" = false → pyStartsWith s "Q" = false →
      sort_period s = some 0) ∧
    sort_period "QX-24" = none ∧
    sort_period "FY" = none := by
  refine ⟨?_, by decide, by decide⟩
  intro s h1 h2
  rw [sort_period, h1, h2]
  rfl

/-- Witness for C6 (amended) at the concrete name H1-24. -/
theorem classification_amended_witness :
    pyStartsWith "H1-24" "FY" = false ∧
    pyStartsWith "H1-24" "Q" = false ∧
    sort_period "H1-24" = some 0 :=
  ⟨by decide, by decide, classification_amended.1 "H1-24" (by decide) (by decide)⟩

/-! ## C10: the long-format CSV exporters -/

/-- C10: the long-format exporters emit one record per non-null cell and
skip every null cell: the per-company export's length is the number of
non-null cells; every non-null cell yields its record; every emitted
record comes from a non-null cell (so carries a non-null value); and every
consolidated record likewise comes from a non-null cell of one company's
table.  An all-null row therefore contributes zero records. -/
theorem export_skips_nulls :
    (∀ (ticker cid : String) (t : KPITable),
      (export_company_data ticker cid t).length
        = (t.rows.map (fun lr => (t.cols.filter (fun c => (lr.2 c).isSome)).length)).sum) ∧
    (∀ (ticker cid : String) (t : KPITable) (lbl : RowLabel)
       (r : String → Option ℚ) (c : String) (v : ℚ),
      (lbl, r) ∈ t.rows → c ∈ t.cols → r c = some v →
      csvRowOf ticker cid lbl c v ∈ export_company_data ticker cid t) ∧
    (∀ (ticker cid : String) (t : KPITable) (rec : CsvRow),
      rec ∈ export_company_data ticker cid t →
      ∃ lr ∈ t.rows, ∃ c ∈ t.cols, ∃ v : ℚ, lr.2 c = some v ∧
        rec = csvRowOf ticker cid lr.1 c v) ∧
    (∀ (companies : List (String × String × String × KPITable)) (rec : ConsCsvRow),
      rec ∈ export_consolidated_data companies →
      ∃ q ∈ companies, ∃ lr ∈ q.2.2.2.rows, ∃ c ∈ q.2.2.2.cols, ∃ v : ℚ,
        lr.2 c = some v ∧ rec = consRowOf q.2.1 q.2.2.1 q.1 lr.1 c v) := by
  refine ⟨?_, ?_, ?_, ?_⟩
  · intro ticker cid t
    rw [export_company_data, List.length_flatMap]
    congr 1
    apply List.map_congr_left
    intro lr _
    exact length_filterMap_map _ _ _
  · intro ticker cid t lbl r c v hmem hc hv
    rw [export_company_data]
    refine List.mem_flatMap.mpr ⟨(lbl, r), hmem, ?_⟩
    refine List.mem_filterMap.mpr ⟨c, hc, ?_⟩
    simp [hv]
  · intro ticker cid t rec hrec
    rw [export_company_data] at hrec
    obtain ⟨lr, hlr, hin⟩ := List.mem_flatMap.mp hrec
    obtain ⟨c, hc, heq⟩ := List.mem_filterMap.mp hin
    cases hv : lr.2 c with
    | none => rw [hv] at heq; cases heq
    | some v =>
      rw [hv] at heq
      refine ⟨lr, hlr, c, hc, v, hv, ?_⟩
      cases heq
      rfl
  · intro companies rec hrec
    rw [export_consolidated_data] at hrec
    obtain ⟨q, hq, hin1⟩ := List.mem_flatMap.mp hrec
    obtain ⟨lr, hlr, hin2⟩ := List.mem_flatMap.mp hin1
    obtain ⟨c, hc, heq⟩ := List.mem_filterMap.mp hin2
    cases hv : lr.2 c with
    | none => rw [hv] at heq; cases heq
    | some v =>
      rw [hv] at heq
      refine ⟨q, hq, lr, hlr, c, hc, v, hv, ?_⟩
      cases heq
      rfl

/-- A one-cell table for the C10 witness. -/
def tableC10 : KPITable :=
  ⟨["FY24"],
   [(RowLabel.base ("A", "B", "U"), fun c => if c = "FY24" then some 5 else none)]⟩

/-- Witness for C10: the single non-null cell of a concrete table is
exported as its long-format record. -/
theorem export_skips_nulls_witness :
    csvRowOf "T" "C" (RowLabel.base ("A", "B", "U")) "FY24" 5
      ∈ export_company_data "T" "C" tableC10 :=
  export_skips_nulls.2.1 "T" "C" tableC10 _ _ "FY24" 5
    (List.mem_cons_self _ _) (by decide) (by decide)

end AutoFin
